import Mathlib

/-!
# Shallow embedding of the hawkbit-rs DDI client core

This file embeds, in Lean 4, the parts of the `hawkbit` crate
(collabora/hawkbit-rs) needed to settle the frozen claims about:

* `Polling::as_duration` (src/hawkbit/src/ddi/poll.rs) — parsing of the
  server-supplied `HH:MM:SS` sleep interval;
* `DownloadHasher` / `DownloadStreamHash` and
  `DownloadedArtifact::hash` (src/hawkbit/src/ddi/deployment_base.rs) —
  the streaming checksum-verified download and the post-hoc file check;
* the custom `Deserialize` impl for `Links` and the link selection in
  `Artifact::download_response` (src/hawkbit/src/ddi/deployment_base.rs);
* `send_feedback_internal` (src/hawkbit/src/ddi/common.rs) and
  `Update::send_feedback` (src/hawkbit/src/ddi/deployment_base.rs).

Modelling conventions:

* Byte strings (`bytes::Bytes`, `&[u8]`) are `List Nat`.
* Rust `u64` arithmetic is `Nat` arithmetic reduced `% 2 ^ 64` where the
  source performs unchecked `u64` operations.
* The incremental `Digest` state of a hasher is represented by the exact
  sequence of bytes fed to it so far; the algorithm itself is a parameter
  `hashFn : List Nat → String` mapping the fed bytes to the hex-encoded
  digest string (`format!("{:x}", digest)` in the source).  Every theorem
  below holds for an arbitrary `hashFn`, hence for MD5/SHA-1/SHA-256.
* A `futures` `Stream` run to completion by its consumer is a finite list
  of items.  The inner byte stream of `DownloadStreamHash` is a
  `List (Except Error (List Nat))` followed by end-of-stream; the wrapper
  is given both as the literal `poll_next` step function on a state and
  as the induced consumer run (the consumer stops at end-of-stream or at
  the first error item, the way `TryStream` consumers drain a stream).
* `url::Url` values are modelled already parsed: a record with a
  cannot-be-a-base flag, an authority part carried through untouched,
  path segments and an optional query.  String → Url parsing itself is
  the external `url` crate's job and is out of scope.
-/

deriving instance DecidableEq for Except

namespace Hawkbit



/-- Rust `ChecksumType` from deployment_base.rs (cfg feature "hash-digest"). -/
inductive ChecksumType
  | md5
  | sha1
  | sha256
deriving DecidableEq, Repr

/-- The variant of `url::ParseError` used by `send_feedback_internal`. -/
inductive UrlParseError
  | setHostOnCannotBeABaseUrl
deriving DecidableEq, Repr

/-- The DDI `Error` enum from client.rs, plus the `ChecksumError` variant
constructed in deployment_base.rs.  Transport and I/O errors carry an
abstract message. -/
inductive Error
  | parseUrlError (e : UrlParseError)
  | invalidToken
  | reqwestError (msg : String)
  | invalidSleep
  | io (msg : String)
  | checksumError (c : ChecksumType)
deriving DecidableEq, Repr

/-- Rust `std::time::Duration`: seconds and nanoseconds. -/
structure Duration where
  secs : Nat
  nanos : Nat
deriving DecidableEq, Repr

/-- Rust `str::split(':')` modelled on the character list: splits at every
separator, keeping empty pieces, and yields one (possibly empty) piece
even for the empty input — exactly Rust's `split` semantics. -/
def splitSep (sep : Char) : List Char → List (List Char)
  | [] => [[]]
  | c :: rest =>
    let r := splitSep sep rest
    if c = sep then [] :: r
    else
      match r with
      | [] => [[c]]
      | p :: ps => (c :: p) :: ps

/-- Rust `str::parse::<u64>()`: an optional leading `+`, then one or more
ASCII digits, and the value must fit in 64 bits (`Err` on overflow). -/
def parseU64 (s : List Char) : Option Nat :=
  let ds := match s with
    | '+' :: rest => rest
    | other => other
  if ds.isEmpty then none
  else if ds.all (fun c => c.isDigit) then
    let v := ds.foldl (fun a c => a * 10 + (c.toNat - 48)) 0
    if v < 2 ^ 64 then some v else none
  else none

/-- Rust `Polling` from poll.rs: the raw `sleep` field of the poll reply. -/
structure Polling where
  sleep : String

/-- Rust `Polling::as_duration` from poll.rs:

```
let times: Vec<Result<u64, _>> = self.sleep.split(':').map(|s| s.parse()).collect();
if times.len() != 3 { return Err(Error::InvalidSleep); }
match times[..] {
    [Ok(h), Ok(m), Ok(s)] => Ok(Duration::new(h * 60 * 60 + m * 60 + s, 0)),
    _ => Ok(Duration::new(0, 0)),
}
```

The `u64` sum is reduced `% 2 ^ 64` (unchecked release arithmetic). -/
def Polling.as_duration (self : Polling) : Except Error Duration :=
  let times := (splitSep ':' self.sleep.data).map parseU64
  if times.length ≠ 3 then .error .invalidSleep
  else
    match times with
    | [some h, some m, some s] =>
      .ok ⟨(h * 60 * 60 + m * 60 + s) % 2 ^ 64, 0⟩
    | _ => .ok ⟨0, 0⟩

/-- Rust `Reply::polling_sleep` from poll.rs, delegating to `as_duration`. -/
def Reply.polling_sleep (sleep : String) : Except Error Duration :=
  Polling.as_duration ⟨sleep⟩

/-- Rust `DownloadHasher<T>` from deployment_base.rs.  The incremental digest
state `hasher : T` is represented by the exact byte sequence fed so far;
`expected` is the server-declared hex digest string and `error` the
`ChecksumType` used to tag a mismatch. -/
structure DownloadHasher where
  hasher : List Nat
  expected : String
  error : ChecksumType
deriving DecidableEq, Repr

/-- Rust `DownloadHasher::update`: feed bytes into the running digest. -/
def DownloadHasher.update (self : DownloadHasher) (data : List Nat) : DownloadHasher :=
  { self with hasher := self.hasher ++ data }

/-- Rust `DownloadHasher::finalize`: hex-encode the final digest and compare it
with the declared string (`hashFn` stands for `format!("{:x}", hasher.finalize())`). -/
def DownloadHasher.finalize (hashFn : List Nat → String) (self : DownloadHasher) :
    Except Error Unit :=
  if hashFn self.hasher = self.expected then .ok () else .error (.checksumError self.error)

/-- Rust `DownloadHasher::new_md5`. -/
def DownloadHasher.new_md5 (expected : String) : DownloadHasher :=
  ⟨[], expected, .md5⟩

/-- Rust `DownloadHasher::new_sha1`. -/
def DownloadHasher.new_sha1 (expected : String) : DownloadHasher :=
  ⟨[], expected, .sha1⟩

/-- Rust `DownloadHasher::new_sha256`. -/
def DownloadHasher.new_sha256 (expected : String) : DownloadHasher :=
  ⟨[], expected, .sha256⟩

/-- Rust `DownloadStreamHash<T>` from deployment_base.rs: the boxed inner byte
stream (remaining items before end-of-stream) plus the running hasher. -/
structure DownloadStreamHash where
  stream : List (Except Error (List Nat))
  hasher : DownloadHasher
deriving DecidableEq, Repr

/-- Rust `<DownloadStreamHash as Stream>::poll_next`, for a ready inner stream
(`Poll::Pending` merely re-polls and is invisible to item order):

* inner `Ready(Some(Ok(data)))` — feed `data` to the hasher, re-emit it;
* inner `Ready(None)` — finalize a clone of the hasher and emit either
  end-of-stream or the checksum error;
* inner `Ready(Some(Err(e)))` — pass the error through untouched.

Returns the yielded item (`none` = end-of-stream) and the next state. -/
def DownloadStreamHash.poll_next (hashFn : List Nat → String) :
    DownloadStreamHash → Option (Except Error (List Nat)) × DownloadStreamHash
  | ⟨[], hasher⟩ =>
    match hasher.finalize hashFn with
    | .ok _ => (none, ⟨[], hasher⟩)
    | .error e => (some (.error e), ⟨[], hasher⟩)
  | ⟨.ok data :: rest, hasher⟩ => (some (.ok data), ⟨rest, hasher.update data⟩)
  | ⟨.error e :: rest, hasher⟩ => (some (.error e), ⟨rest, hasher⟩)

/-- The consumer run of `DownloadStreamHash`: the list of items a consumer
draining the stream observes, stopping at end-of-stream or at the first
error item (`TryStream` discipline).  Defined by structural recursion on
the remaining inner items; `DownloadStreamHash.run_eq_poll_next` below
proves it is exactly the iteration of `poll_next`. -/
def DownloadStreamHash.run (hashFn : List Nat → String) (hasher : DownloadHasher) :
    List (Except Error (List Nat)) → List (Except Error (List Nat))
  | [] =>
    match hasher.finalize hashFn with
    | .ok _ => []
    | .error e => [.error e]
  | .ok data :: rest => .ok data :: DownloadStreamHash.run hashFn (hasher.update data) rest
  | .error e :: _ => [.error e]

/-- Rust `Artifact::download_stream` re-emits the inner response body items
unchanged (`map_err` only converts the error type); its consumer run over
the same inner items, with the same stop-at-first-error discipline. -/
def download_stream_run : List (Except Error (List Nat)) → List (Except Error (List Nat))
  | [] => []
  | .ok data :: rest => .ok data :: download_stream_run rest
  | .error e :: _ => [.error e]

/-- Rust `Artifact::download_stream_with_md5_check`, given the inner stream of
`download_stream` and the declared md5 string: wraps it with a fresh md5
hasher. -/
def download_stream_with_md5_check (md5 : String)
    (inner : List (Except Error (List Nat))) : DownloadStreamHash :=
  ⟨inner, DownloadHasher.new_md5 md5⟩

/-- Rust `Artifact::download_stream_with_sha1_check`. -/
def download_stream_with_sha1_check (sha1 : String)
    (inner : List (Except Error (List Nat))) : DownloadStreamHash :=
  ⟨inner, DownloadHasher.new_sha1 sha1⟩

/-- Rust `Artifact::download_stream_with_sha256_check`. -/
def download_stream_with_sha256_check (sha256 : String)
    (inner : List (Except Error (List Nat))) : DownloadStreamHash :=
  ⟨inner, DownloadHasher.new_sha256 sha256⟩

/-- The payload chunks (successful items) of an item list, in order. -/
def okPayload (items : List (Except Error (List Nat))) : List (List Nat) :=
  items.filterMap fun i =>
    match i with
    | .ok d => some d
    | .error _ => none

/-- Rust `HASH_BUFFER_SIZE` from deployment_base.rs. -/
def HASH_BUFFER_SIZE : Nat := 4096

/-- The read loop of `DownloadedArtifact::hash`: `file.read` returns up to
`HASH_BUFFER_SIZE` bytes per iteration until it returns 0; the file's
bytes therefore reach the hasher as successive buffers of at most 4096
bytes. -/
def readChunks (bytes : List Nat) : List (List Nat) :=
  if h : bytes = [] then []
  else bytes.take HASH_BUFFER_SIZE :: readChunks (bytes.drop HASH_BUFFER_SIZE)
termination_by bytes.length
decreasing_by
  simp only [List.length_drop]
  have hpos : 0 < bytes.length := List.length_pos.mpr h
  simp only [HASH_BUFFER_SIZE]
  omega

/-- Rust `DownloadedArtifact::hash` from deployment_base.rs: re-read the written
file (`fileBytes`) in `HASH_BUFFER_SIZE` buffers, feed each to the running
hasher, then finalize. -/
def DownloadedArtifact.hash (hashFn : List Nat → String) (fileBytes : List Nat)
    (hasher : DownloadHasher) : Except Error Unit :=
  ((readChunks fileBytes).foldl DownloadHasher.update hasher).finalize hashFn

/-- Rust `DownloadedArtifact::check_md5`. -/
def DownloadedArtifact.check_md5 (hashFn : List Nat → String) (fileBytes : List Nat)
    (md5 : String) : Except Error Unit :=
  DownloadedArtifact.hash hashFn fileBytes (DownloadHasher.new_md5 md5)

/-- Rust `DownloadedArtifact::check_sha1`. -/
def DownloadedArtifact.check_sha1 (hashFn : List Nat → String) (fileBytes : List Nat)
    (sha1 : String) : Except Error Unit :=
  DownloadedArtifact.hash hashFn fileBytes (DownloadHasher.new_sha1 sha1)

/-- Rust `DownloadedArtifact::check_sha256`. -/
def DownloadedArtifact.check_sha256 (hashFn : List Nat → String) (fileBytes : List Nat)
    (sha256 : String) : Except Error Unit :=
  DownloadedArtifact.hash hashFn fileBytes (DownloadHasher.new_sha256 sha256)

/-- Rust `Download` from deployment_base.rs: a content link plus an optional
md5sum link (links modelled by their `href` strings). -/
structure Download where
  content : String
  md5sum : Option String
deriving DecidableEq, Repr

/-- Rust `Links` from deployment_base.rs: at least one of `http` or `https`
is `Some` for every value produced by the deserializer. -/
structure Links where
  http : Option Download
  https : Option Download
deriving DecidableEq, Repr

/-- Serde map-deserialization errors produced by the `Links` visitor. -/
inductive DeError
  | duplicateField (f : String)
  | missingField (f : String)
deriving DecidableEq, Repr

/-- The loop body plus epilogue of `Links::deserialize`'s `visit_map`: the
four accumulators are the visitor's local `Option`s, `entries` the
remaining `(key, link href)` pairs of the serde map (unknown keys are
ignored via `IgnoredAny`).  After the loop, `https`/`http` are assembled
and the absence of both is `missing_field("download or download-http")`. -/
def Links.visitMap :
    List (String × String) → Option String → Option String → Option String →
      Option String → Except DeError Links
  | [], download, md5sum, download_http, md5sum_http =>
    let https := download.map fun content => Download.mk content md5sum
    let http := download_http.map fun content => Download.mk content md5sum_http
    if http.isNone && https.isNone then
      .error (.missingField "download or download-http")
    else
      .ok ⟨http, https⟩
  | (key, value) :: rest, download, md5sum, download_http, md5sum_http =>
    if key = "download" then
      match download with
      | some _ => .error (.duplicateField "download")
      | none => Links.visitMap rest (some value) md5sum download_http md5sum_http
    else if key = "md5sum" then
      match md5sum with
      | some _ => .error (.duplicateField "md5sum")
      | none => Links.visitMap rest download (some value) download_http md5sum_http
    else if key = "download-http" then
      match download_http with
      | some _ => .error (.duplicateField "download-http")
      | none => Links.visitMap rest download md5sum (some value) md5sum_http
    else if key = "md5sum-http" then
      match md5sum_http with
      | some _ => .error (.duplicateField "md5sum-http")
      | none => Links.visitMap rest download md5sum download_http (some value)
    else
      Links.visitMap rest download md5sum download_http md5sum_http

/-- Rust `Links::deserialize`: run the visitor over the serde map entries with
all accumulators empty. -/
def Links.deserialize (entries : List (String × String)) : Except DeError Links :=
  Links.visitMap entries none none none none

/-- The link selection of `Artifact::download_response`:
`links.https.as_ref().or(links.http.as_ref())`, then the GET goes to
`download.content`; `none` is the panicking
`expect("Missing content link in for artifact")` branch. -/
def Artifact.download_response (links : Links) : Option String :=
  (links.https.or links.http).map Download.content

/-- Rust `Execution` from common.rs. -/
inductive Execution
  | closed
  | proceeding
  | canceled
  | scheduled
  | rejected
  | resumed
deriving DecidableEq, Repr

/-- Rust `Finished` from common.rs. -/
inductive Finished
  | success
  | failure
  | none
deriving DecidableEq, Repr

/-- A parsed `url::Url` as used by `send_feedback_internal`: the
cannot-be-a-base flag (`path_segments_mut` returns `Err` exactly for such
URLs), an authority part (scheme/host/port) carried through untouched,
the path segments and the optional query string. -/
structure Url where
  cannotBeABase : Bool
  authority : String
  pathSegments : List String
  query : Option String
deriving DecidableEq, Repr

/-- Rust `ResultT` from feedback.rs. -/
structure ResultT (T : Type) where
  finished : Finished
  progress : Option T
deriving DecidableEq, Repr

/-- Rust `Status` from feedback.rs. -/
structure Status (T : Type) where
  execution : Execution
  result : ResultT T
  details : List String
deriving DecidableEq, Repr

/-- Rust `Feedback` from feedback.rs: the posted status envelope. -/
structure Feedback (T : Type) where
  id : String
  status : Status T
deriving DecidableEq, Repr

/-- Rust `Feedback::new` from feedback.rs. -/
def Feedback.new (T : Type) (id : String) (execution : Execution) (finished : Finished)
    (progress : Option T) (details : List String) : Feedback T :=
  ⟨id, ⟨execution, ⟨finished, progress⟩, details⟩⟩

/-- Rust `send_feedback_internal` from common.rs, up to the network write: on a
cannot-be-a-base URL, `url.path_segments_mut()` is `Err` and the function
fails with `ParseUrlError(SetHostOnCannotBeABaseUrl)` before any POST;
otherwise it pushes the single segment "feedback", clears the query, and
POSTs the envelope built by `Feedback::new` to the rewritten URL.  The
result models the POST as the pair (target URL, body). -/
def send_feedback_internal (T : Type) (url : Url) (id : String) (execution : Execution)
    (finished : Finished) (progress : Option T) (details : List String) :
    Except Error (Url × Feedback T) :=
  if url.cannotBeABase then
    .error (.parseUrlError .setHostOnCannotBeABaseUrl)
  else
    .ok
      ({ url with
           pathSegments := url.pathSegments ++ ["feedback"],
           query := Option.none },
        Feedback.new T id execution finished progress details)

/-- Rust `Update` from deployment_base.rs, reduced to the fields feedback uses:
`info.id` (the resolved action id of the fetched deployment descriptor)
and `url` (the deploymentBase URL the `UpdatePreFetch` was created with,
modelled parsed). -/
structure Update where
  id : String
  url : Url
deriving DecidableEq, Repr

/-- Rust `Update::send_feedback` from deployment_base.rs: delegates to
`send_feedback_internal` with `progress = None::<bool>`, its own URL and
its own action id. -/
def Update.send_feedback (self : Update) (execution : Execution) (finished : Finished)
    (details : List String) : Except Error (Url × Feedback Bool) :=
  send_feedback_internal Bool self.url self.id execution finished Option.none details

/-- Rust `Update::send_feedback_with_progress` from deployment_base.rs:
delegates with `progress = Some progress`. -/
def Update.send_feedback_with_progress (T : Type) (self : Update) (execution : Execution)
    (finished : Finished) (progress : T) (details : List String) :
    Except Error (Url × Feedback T) :=
  send_feedback_internal T self.url self.id execution finished (Option.some progress) details

example : Reply.polling_sleep "00:00:05" = .ok ⟨5, 0⟩ := by decide

example : Reply.polling_sleep "01:05:05" = .ok ⟨3905, 0⟩ := by decide

example : Reply.polling_sleep "05:05" = .error .invalidSleep := by decide

example : Reply.polling_sleep "invalid" = .error .invalidSleep := by decide

example : Reply.polling_sleep "aa:bb:cc" = .ok ⟨0, 0⟩ := by decide

/-- C3: the claim says every sleep string that does not split into exactly
three numeric components — including three-component strings with a
non-numeric part such as "aa:bb:cc" — fails with the "invalid sleep"
error and never falls back to a zero duration.  The code disagrees: its
catch-all match arm returns `Ok(Duration::new(0, 0))` when the string has
exactly three colon-separated components but one of them fails to parse,
while strings with a wrong component count do get `InvalidSleep`.  This
theorem evaluates the code at the failing input "aa:bb:cc". -/

theorem as_duration_nonnumeric_falls_back_to_zero :
    Polling.as_duration ⟨"aa:bb:cc"⟩ = .ok ⟨0, 0⟩ ∧
    Polling.as_duration ⟨"aa:bb:cc"⟩ ≠ .error .invalidSleep ∧
    Polling.as_duration ⟨"05:05"⟩ = .error .invalidSleep ∧
    Polling.as_duration ⟨"invalid"⟩ = .error .invalidSleep := by
  refine ⟨by decide, by decide, by decide, by decide⟩

/-- C4 counterexample: the claim promises exactly `h*3600 + m*60 + s`
seconds for every well-formed three-numeric-component string, but the
`u64` sum wraps; at `h = 2^64 - 1` the returned seconds differ from the
mathematical value. -/
theorem as_duration_overflow_counterexample :
    Polling.as_duration ⟨"18446744073709551615:00:00"⟩ ≠
      .ok ⟨18446744073709551615 * 3600 + 0 * 60 + 0, 0⟩ := by decide

/-- C4 (amended): for every sleep string splitting into exactly three
components that all parse as `u64`, and whose mathematical value
`h*3600 + m*60 + s` fits in 64 bits, `as_duration` returns `Ok` of a
duration of exactly `h*3600 + m*60 + s` seconds and zero nanoseconds. -/
theorem as_duration_exact_seconds (p : Polling) (a b c : List Char) (h m s : Nat)
    (hsplit : splitSep ':' p.sleep.data = [a, b, c])
    (hh : parseU64 a = some h) (hm : parseU64 b = some m) (hs : parseU64 c = some s)
    (hlt : h * 3600 + m * 60 + s < 2 ^ 64) :
    p.as_duration = .ok ⟨h * 3600 + m * 60 + s, 0⟩ := by
  unfold Polling.as_duration
  rw [hsplit]
  simp only [List.map, hh, hm, hs, List.length, ne_eq]
  have h36 : h * 60 * 60 + m * 60 + s = h * 3600 + m * 60 + s := by ring
  rw [if_neg (by decide), h36, Nat.mod_eq_of_lt hlt]

/-- C4 witness: a concrete well-formed string. -/
theorem as_duration_exact_seconds_witness :
    Polling.as_duration ⟨"01:05:05"⟩ = .ok ⟨1 * 3600 + 5 * 60 + 5, 0⟩ :=
  as_duration_exact_seconds ⟨"01:05:05"⟩ "01".data "05".data "05".data 1 5 5
    (by decide) (by decide) (by decide) (by decide) (by decide)

/-- C10: the sleep computation is unchecked 64-bit arithmetic: the code
returns the sum reduced `% 2 ^ 64`, so when the mathematical value
`h*3600 + m*60 + s` is at least `2 ^ 64` the returned duration is not the
mathematical number of seconds. -/
theorem as_duration_wraps_mod_u64 (p : Polling) (a b c : List Char) (h m s : Nat)
    (hsplit : splitSep ':' p.sleep.data = [a, b, c])
    (hh : parseU64 a = some h) (hm : parseU64 b = some m) (hs : parseU64 c = some s)
    (hge : 2 ^ 64 ≤ h * 3600 + m * 60 + s) :
    p.as_duration = .ok ⟨(h * 3600 + m * 60 + s) % 2 ^ 64, 0⟩ ∧
    p.as_duration ≠ .ok ⟨h * 3600 + m * 60 + s, 0⟩ := by
  have h36 : h * 60 * 60 + m * 60 + s = h * 3600 + m * 60 + s := by ring
  have hmain : p.as_duration = .ok ⟨(h * 3600 + m * 60 + s) % 2 ^ 64, 0⟩ := by
    unfold Polling.as_duration
    rw [hsplit]
    simp only [List.map, hh, hm, hs, List.length, ne_eq]
    rw [if_neg (by decide), h36]
  refine ⟨hmain, ?_⟩
  rw [hmain]
  intro hcontra
  have hfields : (h * 3600 + m * 60 + s) % 2 ^ 64 = h * 3600 + m * 60 + s := by
    have := Except.ok.inj hcontra
    exact congrArg Duration.secs this
  have hsmall : (h * 3600 + m * 60 + s) % 2 ^ 64 < 2 ^ 64 :=
    Nat.mod_lt _ (by norm_num)
  omega

/-- C10 witness: `h = 2^64 - 1` overflows the seconds computation. -/
theorem as_duration_wraps_mod_u64_witness :
    Polling.as_duration ⟨"18446744073709551615:00:00"⟩ =
      .ok ⟨(18446744073709551615 * 3600 + 0 * 60 + 0) % 2 ^ 64, 0⟩ ∧
    Polling.as_duration ⟨"18446744073709551615:00:00"⟩ ≠
      .ok ⟨18446744073709551615 * 3600 + 0 * 60 + 0, 0⟩ :=
  as_duration_wraps_mod_u64 ⟨"18446744073709551615:00:00"⟩
    "18446744073709551615".data "00".data "00".data 18446744073709551615 0 0
    (by decide) (by decide) (by decide) (by decide) (by decide)

/-- Each step of `run` is one `poll_next` step: `run` really is the
consumer-observed unfolding of the wrapper's `poll_next`. -/
theorem DownloadStreamHash.run_eq_poll_next (hashFn : List Nat → String)
    (st : DownloadStreamHash) :
    DownloadStreamHash.run hashFn st.hasher st.stream =
      match st.poll_next hashFn with
      | (none, _) => []
      | (some (.error e), _) => [.error e]
      | (some (.ok data), st2) =>
        .ok data :: DownloadStreamHash.run hashFn st2.hasher st2.stream := by
  obtain ⟨stream, hasher⟩ := st
  match stream with
  | [] =>
    simp only [DownloadStreamHash.poll_next, DownloadStreamHash.run]
    cases hasher.finalize hashFn <;> rfl
  | .ok data :: rest => rfl
  | .error e :: rest => rfl

theorem okPayload_nil : okPayload [] = [] := rfl

theorem okPayload_ok (d : List Nat) (rest : List (Except Error (List Nat))) :
    okPayload (.ok d :: rest) = d :: okPayload rest := rfl

theorem okPayload_error (e : Error) (rest : List (Except Error (List Nat))) :
    okPayload (.error e :: rest) = okPayload rest := rfl

theorem okPayload_append (a b : List (Except Error (List Nat))) :
    okPayload (a ++ b) = okPayload a ++ okPayload b := by
  simp [okPayload]

/-- The checked stream's run is the plain stream's run followed by a
payload-free tail (the at-most-one terminal checksum item). -/
theorem run_extends_plain (hashFn : List Nat → String) (hasher : DownloadHasher)
    (inner : List (Except Error (List Nat))) :
    ∃ tail, DownloadStreamHash.run hashFn hasher inner = download_stream_run inner ++ tail ∧
      okPayload tail = [] := by
  induction inner generalizing hasher with
  | nil =>
    refine ⟨DownloadStreamHash.run hashFn hasher [], by simp [download_stream_run], ?_⟩
    simp only [DownloadStreamHash.run]
    cases hasher.finalize hashFn <;> simp [okPayload]
  | cons i rest ih =>
    match i with
    | .ok data =>
      obtain ⟨tail, h1, h2⟩ := ih (hasher.update data)
      exact ⟨tail, by simp [DownloadStreamHash.run, download_stream_run, h1], h2⟩
    | .error e =>
      exact ⟨[], by simp [DownloadStreamHash.run, download_stream_run], rfl⟩

/-- C1: the checksum-verifying stream is payload-transparent: over the same
underlying chunk items, the payload chunks it yields are identical, in the
same order, to those of the unguarded `download_stream` run; moreover its
whole run is the plain run followed by a payload-free tail — it never
buffers, reorders, drops or truncates payload bytes. -/
theorem checked_stream_payload_transparent (hashFn : List Nat → String)
    (hasher : DownloadHasher) (inner : List (Except Error (List Nat))) :
    okPayload (DownloadStreamHash.run hashFn hasher inner) =
      okPayload (download_stream_run inner) ∧
    ∃ tail, DownloadStreamHash.run hashFn hasher inner = download_stream_run inner ++ tail ∧
      okPayload tail = [] := by
  obtain ⟨tail, h1, h2⟩ := run_extends_plain hashFn hasher inner
  refine ⟨?_, tail, h1, h2⟩
  rw [h1, okPayload_append, h2, List.append_nil]

/-- With all-ok input and starting digest state `fed`, the run emits every
chunk and then the finalization outcome over `fed ++` all bytes. -/
theorem run_all_ok_general (hashFn : List Nat → String) (fed : List Nat)
    (expected : String) (alg : ChecksumType) (chunks : List (List Nat)) :
    DownloadStreamHash.run hashFn ⟨fed, expected, alg⟩ (chunks.map .ok) =
      chunks.map .ok ++
        (if hashFn (fed ++ chunks.flatten) = expected then []
         else [.error (.checksumError alg)]) := by
  induction chunks generalizing fed with
  | nil =>
    by_cases hcmp : hashFn (fed ++ List.flatten []) = expected <;>
      simp [DownloadStreamHash.run, DownloadHasher.finalize, hcmp] <;>
      simp_all
  | cons c cs ih =>
    simp only [List.map, DownloadStreamHash.run, DownloadHasher.update]
    rw [ih (fed ++ c)]
    simp [List.append_assoc]

/-- C2: when the underlying sequence completes without error (the zero-chunk
sequence included), the wrapper emits every payload chunk first and then
finalizes the digest over exactly the concatenated bytes: clean completion
if the hex digest equals the declared hash, otherwise one terminal error
item tagged with the checked algorithm; for empty input the comparison
still runs and decides the outcome. -/
theorem run_completion_checks_digest (hashFn : List Nat → String) (expected : String)
    (alg : ChecksumType) (chunks : List (List Nat)) :
    DownloadStreamHash.run hashFn ⟨[], expected, alg⟩ (chunks.map .ok) =
      chunks.map .ok ++
        (if hashFn chunks.flatten = expected then []
         else [.error (.checksumError alg)]) ∧
    DownloadStreamHash.run hashFn ⟨[], expected, alg⟩ [] =
      (if hashFn [] = expected then [] else [.error (.checksumError alg)]) := by
  constructor
  · have := run_all_ok_general hashFn [] expected alg chunks
    simpa using this
  · have := run_all_ok_general hashFn [] expected alg []
    simpa using this

/-- C6: an error of the underlying stream is re-emitted at the same
position, unmodified, and terminates the run: finalization never happens,
so no checksum item can follow an inner error. -/
theorem run_inner_error_passthrough (hashFn : List Nat → String)
    (hasher : DownloadHasher) (pre : List (List Nat)) (e : Error)
    (rest : List (Except Error (List Nat))) :
    DownloadStreamHash.run hashFn hasher (pre.map .ok ++ .error e :: rest) =
      pre.map .ok ++ [.error e] := by
  induction pre generalizing hasher with
  | nil => simp [DownloadStreamHash.run]
  | cons c cs ih =>
    simp only [List.map, List.cons_append, DownloadStreamHash.run, List.append_eq]
    rw [ih (hasher.update c)]

theorem readChunks_flatten (bytes : List Nat) : (readChunks bytes).flatten = bytes := by
  induction bytes using readChunks.induct with
  | case1 => rw [readChunks]; simp
  | case2 b hb ih =>
    rw [readChunks, dif_neg hb]
    simp [ih]

theorem foldl_update (chunks : List (List Nat)) (fed : List Nat) (expected : String)
    (alg : ChecksumType) :
    chunks.foldl DownloadHasher.update ⟨fed, expected, alg⟩ =
      ⟨fed ++ chunks.flatten, expected, alg⟩ := by
  induction chunks generalizing fed with
  | nil => simp
  | cons c cs ih =>
    simp only [List.foldl, DownloadHasher.update]
    rw [ih (fed ++ c)]
    simp

/-- The post-hoc check is the digest comparison over exactly the file's
bytes, whatever the buffering. -/
theorem posthoc_hash_eq (hashFn : List Nat → String) (fileBytes : List Nat)
    (expected : String) (alg : ChecksumType) :
    DownloadedArtifact.hash hashFn fileBytes ⟨[], expected, alg⟩ =
      (if hashFn fileBytes = expected then .ok ()
       else .error (.checksumError alg)) := by
  unfold DownloadedArtifact.hash
  rw [foldl_update, readChunks_flatten]
  rfl

/-- C5: for every byte content (presented to the in-line path as an
arbitrary chunking) and every declared hash string, the post-hoc
verification over the written bytes and the in-line verifying stream have
the same outcome: either the digest matches — the check returns ok and the
stream completes cleanly after re-emitting all chunks — or it does not,
and both fail with the checksum-mismatch error tagged with the same
algorithm. -/
theorem posthoc_inline_agree (hashFn : List Nat → String) (expected : String)
    (alg : ChecksumType) (chunks : List (List Nat)) :
    (DownloadedArtifact.hash hashFn chunks.flatten ⟨[], expected, alg⟩ = .ok () ∧
       DownloadStreamHash.run hashFn ⟨[], expected, alg⟩ (chunks.map .ok) =
         chunks.map .ok) ∨
    (DownloadedArtifact.hash hashFn chunks.flatten ⟨[], expected, alg⟩ =
         .error (.checksumError alg) ∧
       DownloadStreamHash.run hashFn ⟨[], expected, alg⟩ (chunks.map .ok) =
         chunks.map .ok ++ [.error (.checksumError alg)]) := by
  have hrun := run_all_ok_general hashFn [] expected alg chunks
  simp only [List.nil_append] at hrun
  by_cases hcmp : hashFn chunks.flatten = expected
  · left
    rw [posthoc_hash_eq, if_pos hcmp, hrun, if_pos hcmp, List.append_nil]
    exact ⟨rfl, rfl⟩
  · right
    rw [posthoc_hash_eq, if_neg hcmp, hrun, if_neg hcmp]
    exact ⟨rfl, rfl⟩

example :
    Links.deserialize [("download", "https://dl"), ("download-http", "http://dl")] =
      .ok ⟨some ⟨"http://dl", none⟩, some ⟨"https://dl", none⟩⟩ := by decide

example :
    Links.deserialize [("md5sum", "https://dl.md5")] =
      .error (.missingField "download or download-http") := by decide

example :
    Artifact.download_response ⟨some ⟨"http://dl", none⟩, some ⟨"https://dl", none⟩⟩ =
      some "https://dl" := by decide

/-- Every `Links` value the visitor accepts has at least one link. -/
theorem visitMap_ok_has_link (entries : List (String × String))
    (dl md5 dlh md5h : Option String) (links : Links)
    (hok : Links.visitMap entries dl md5 dlh md5h = .ok links) :
    links.http.isSome = true ∨ links.https.isSome = true := by
  induction entries generalizing dl md5 dlh md5h with
  | nil =>
    cases dl <;> cases dlh <;> simp_all [Links.visitMap] <;>
      obtain ⟨rfl, rfl⟩ := hok <;> simp
  | cons kv rest ih =>
    obtain ⟨k, v⟩ := kv
    simp only [Links.visitMap] at hok
    split_ifs at hok <;>
      first
        | exact ih _ _ _ _ hok
        | (split at hok
           · simp at hok
           · exact ih _ _ _ _ hok)

/-- C9: the `expect("Missing content link in for artifact")` in
`Artifact::download_response` is unreachable for any `Links` value the
deserializer produced: deserialization succeeding guarantees at least one
of the http/https links, so link selection always finds one. -/
theorem links_deserialize_selection_total (entries : List (String × String))
    (links : Links) (hok : Links.deserialize entries = .ok links) :
    (Artifact.download_response links).isSome = true := by
  have hsome := visitMap_ok_has_link entries none none none none links hok
  unfold Artifact.download_response
  obtain ⟨http, https⟩ := links
  cases http <;> cases https <;> simp_all [Option.or]

/-- C9 witness: a single secure link. -/
theorem links_deserialize_selection_total_witness :
    (Artifact.download_response ⟨none, some ⟨"https://dl", none⟩⟩).isSome = true :=
  links_deserialize_selection_total [("download", "https://dl")]
    ⟨none, some ⟨"https://dl", none⟩⟩ (by decide)

/-- With no download keys among the remaining entries and each md5 key
occurring at most once (counting the accumulator), the visitor ends in the
missing-field error. -/
theorem visitMap_no_download_missing (entries : List (String × String))
    (md5 md5h : Option String)
    (hkeys : ∀ p ∈ entries, p.1 ≠ "download" ∧ p.1 ≠ "download-http")
    (hmd5 : (entries.map Prod.fst).count "md5sum" +
      (if md5.isSome then 1 else 0) ≤ 1)
    (hmd5h : (entries.map Prod.fst).count "md5sum-http" +
      (if md5h.isSome then 1 else 0) ≤ 1) :
    Links.visitMap entries none md5 none md5h =
      .error (.missingField "download or download-http") := by
  induction entries generalizing md5 md5h with
  | nil => rfl
  | cons kv rest ih =>
    obtain ⟨k, v⟩ := kv
    have hk := hkeys (k, v) (List.mem_cons_self _ _)
    have hkeys2 : ∀ p ∈ rest, p.1 ≠ "download" ∧ p.1 ≠ "download-http" :=
      fun p hp => hkeys p (List.mem_cons_of_mem _ hp)
    simp only [Links.visitMap, if_neg hk.1, if_neg hk.2]
    rw [List.map_cons, List.count_cons] at hmd5 hmd5h
    simp only [beq_iff_eq] at hmd5 hmd5h
    by_cases hks : k = "md5sum"
    · subst hks
      rw [if_pos rfl]
      rw [if_pos rfl] at hmd5
      rw [if_neg (by decide : ¬("md5sum" : String) = "md5sum-http")] at hmd5h
      cases md5 with
      | some w => simp at hmd5
      | none =>
        refine ih (some v) md5h hkeys2 ?_ ?_
        · simp only [Option.isSome_none, Option.isSome_some, if_true, if_false] at hmd5 ⊢
          omega
        · simpa using hmd5h
    · rw [if_neg hks]
      rw [if_neg hks] at hmd5
      by_cases hksh : k = "md5sum-http"
      · subst hksh
        rw [if_pos rfl]
        rw [if_pos rfl] at hmd5h
        cases md5h with
        | some w => simp at hmd5h
        | none =>
          refine ih md5 (some v) hkeys2 ?_ ?_
          · simpa using hmd5
          · simp only [Option.isSome_none, Option.isSome_some, if_true, if_false] at hmd5h ⊢
            omega
      · rw [if_neg hksh]
        rw [if_neg hksh] at hmd5h
        refine ih md5 md5h hkeys2 ?_ ?_
        · simpa using hmd5
        · simpa using hmd5h

/-- C7: the single GET of `download`/`download_stream` goes to the secure
(https) link whenever one is declared and to the insecure (http) link
only when no secure link exists; a descriptor declaring neither link
(and using each md5 key at most once, as a JSON object does) is rejected
at deserialization with the parse error naming the missing field; and no
`Links` value with zero links is ever produced by deserialization. -/
theorem download_link_preference_and_presence :
    (∀ (links : Links) (d : Download), links.https = some d →
        Artifact.download_response links = some d.content) ∧
    (∀ links : Links, links.https = none →
        Artifact.download_response links = links.http.map Download.content) ∧
    (∀ entries : List (String × String),
        (∀ p ∈ entries, p.1 ≠ "download" ∧ p.1 ≠ "download-http") →
        (entries.map Prod.fst).count "md5sum" ≤ 1 →
        (entries.map Prod.fst).count "md5sum-http" ≤ 1 →
        Links.deserialize entries = .error (.missingField "download or download-http")) ∧
    (∀ (entries : List (String × String)) (links : Links),
        Links.deserialize entries = .ok links →
        ¬(links.http = none ∧ links.https = none)) := by
  refine ⟨?_, ?_, ?_, ?_⟩
  · intro links d hd
    simp [Artifact.download_response, hd, Option.or]
  · intro links hd
    simp [Artifact.download_response, hd, Option.or]
  · intro entries hkeys h1 h2
    unfold Links.deserialize
    apply visitMap_no_download_missing entries none none hkeys <;> simpa
  · intro entries links hok hboth
    have hsome := visitMap_ok_has_link entries none none none none links hok
    obtain ⟨h1, h2⟩ := hboth
    simp [h1, h2] at hsome

/-- C7 witness: preference at a two-link value and rejection of a
no-download-link descriptor. -/
theorem download_link_preference_and_presence_witness :
    Artifact.download_response ⟨some ⟨"http://dl", none⟩, some ⟨"https://dl", none⟩⟩ =
        some "https://dl" ∧
    Links.deserialize [("md5sum", "https://dl.md5")] =
        .error (.missingField "download or download-http") :=
  ⟨download_link_preference_and_presence.1 _ ⟨"https://dl", none⟩ rfl,
   download_link_preference_and_presence.2.2.1 _ (by decide) (by decide) (by decide)⟩

/-- C8: every `send_feedback` / `send_feedback_with_progress` call on an
`Update` posts to the URL obtained from the Update's own deploymentBase
URL by appending the single path segment "feedback" and dropping the
query, with the envelope's `id` equal to the Update's resolved action id
— the result is the same deterministic value on every call — and on a
cannot-be-a-base URL the call fails with the URL-parse error instead of
posting. -/
theorem send_feedback_posts_to_feedback_url (T : Type) (u : Update)
    (execution : Execution) (finished : Finished) (progress : T)
    (details : List String) :
    u.send_feedback execution finished details =
      (if u.url.cannotBeABase then .error (.parseUrlError .setHostOnCannotBeABaseUrl)
       else .ok
        ({ u.url with
             pathSegments := u.url.pathSegments ++ ["feedback"],
             query := Option.none },
          Feedback.new Bool u.id execution finished Option.none details)) ∧
    Update.send_feedback_with_progress T u execution finished progress details =
      (if u.url.cannotBeABase then .error (.parseUrlError .setHostOnCannotBeABaseUrl)
       else .ok
        ({ u.url with
             pathSegments := u.url.pathSegments ++ ["feedback"],
             query := Option.none },
          Feedback.new T u.id execution finished (Option.some progress) details)) := by
  constructor <;>
    simp only [Update.send_feedback, Update.send_feedback_with_progress,
      send_feedback_internal]

end Hawkbit
